import Mathlib

/-!
Shallow embedding of the gournal context-aware logging core (package
`gournal`, file embedded from the repository source) together with the
iowriter appender backend. Go maps `map[string]interface{}` are modelled
as association lists with unique keys and lookup semantics; Go's dynamic
`interface{}` log arguments are modelled by the closed `Arg` type covering
the four cases the dispatch engine's type switch distinguishes (string,
error, fmt.Stringer, default). The fragment of `fmt.Sprintf` / `fmt.Fprint`
the engine calls is modelled over `Arg` with Go's verb semantics for
`%s`, `%d`, `%v`, `%%`, missing-argument and extra-argument behavior.
-/

/-- A value stored in a log field map; its `repr` under Go's `%v` verb. -/
inductive GoVal
  | vInt (n : Int)
  | vStr (s : String)
  | vStruct (repr : String)
deriving DecidableEq, Repr

/-- Go's `map[string]interface{}` modelled as an association list. -/
abbrev Fields := List (String × GoVal)

/-- Go map assignment `m[k] = v`: overwrite an existing key in place,
otherwise add the binding. -/
def mapInsert (m : Fields) (k : String) (v : GoVal) : Fields :=
  if (m.lookup k).isSome then
    m.map (fun kv => if kv.1 = k then (k, v) else kv)
  else
    m ++ [(k, v)]

/-- A dynamically typed log argument, one constructor per case of the
dispatch engine's type switch: a Go `string`, an `error` whose `Error()`
returns the given string, a `fmt.Stringer` whose `String()` returns the
given string, and a default value (an `int`) hitting the `%v` fallback. -/
inductive Arg
  | aStr (s : String)
  | aErr (s : String)
  | aStringer (s : String)
  | aInt (n : Int)
deriving DecidableEq, Repr

/-- Go's `%v` rendering of an argument (`%v` on `error` / `fmt.Stringer`
uses their `Error()` / `String()` methods). -/
def vRender : Arg → String
  | .aStr s => s
  | .aErr s => s
  | .aStringer s => s
  | .aInt n => toString n

/-- The Go dynamic type name of an argument, as printed in
`%!(EXTRA type=value)` diagnostics. -/
def argTypeName : Arg → String
  | .aStr _ => "string"
  | .aErr _ => "*errors.errorString"
  | .aStringer _ => "fmt.Stringer"
  | .aInt _ => "int"

/-- Whether the argument is a Go `string` (the `case string:` branch). -/
def argIsString : Arg → Bool
  | .aStr _ => true
  | _ => false

/-- The `fmt` trailing diagnostic for arguments left over after the format
string is exhausted: `%!(EXTRA type=value, ...)`; empty when none remain. -/
def extraArgs : List Arg → String
  | [] => ""
  | args =>
      "%!(EXTRA " ++
        String.intercalate ", "
          (args.map (fun a => argTypeName a ++ "=" ++ vRender a)) ++ ")"

/-- Go's formatting of one verb applied to one argument: `%s` and `%d`
with their wrong-type diagnostics, `%v` as default rendering. -/
def fmtVerb (c : Char) (a : Arg) : String :=
  if c = 's' then
    match a with
    | .aInt n => "%!s(int=" ++ toString n ++ ")"
    | a => vRender a
  else if c = 'd' then
    match a with
    | .aInt n => toString n
    | a => "%!d(" ++ argTypeName a ++ "=" ++ vRender a ++ ")"
  else if c = 'v' then vRender a
  else "%!" ++ String.singleton c ++ "(" ++ argTypeName a ++ "=" ++ vRender a ++ ")"

/-- Character-list worker for the `fmt.Sprintf` fragment: verbs consume
arguments left to right, `%%` is a literal percent, a verb with no
argument left yields `%!verb(MISSING)`, leftover arguments are reported
via `extraArgs`. -/
def sprintfAux : List Char → List Arg → String
  | [], args => extraArgs args
  | '%' :: c :: rest, args =>
      if c = '%' then "%" ++ sprintfAux rest args
      else
        match args with
        | [] => "%!" ++ String.singleton c ++ "(MISSING)" ++ sprintfAux rest []
        | a :: args => fmtVerb c a ++ sprintfAux rest args
  | ['%'], args => "%!(NOVERB)" ++ extraArgs args
  | ch :: rest, args => String.singleton ch ++ sprintfAux rest args

/-- The fragment of `fmt.Sprintf` the dispatch engine uses. -/
def sprintf (format : String) (args : List Arg) : String :=
  sprintfAux format.toList args

/-- The `fmt.Fprint` rendering of an operand list: operands are rendered with
`%v` and a space is inserted between two operands only when neither is a
string. -/
def fprint : List Arg → String
  | [] => ""
  | [a] => vRender a
  | a :: b :: rest =>
      vRender a ++ (if argIsString a || argIsString b then "" else " ") ++
        fprint (b :: rest)

/-- The severity levels, in the source's `iota` order (Panic = 0 most
severe, Debug = 5 least severe). -/
inductive Level
  | PanicLevel
  | FatalLevel
  | ErrorLevel
  | WarnLevel
  | InfoLevel
  | DebugLevel
deriving DecidableEq, Repr

/-- The numeric (`uint8`) value of a level. -/
def Level.toNat : Level → Nat
  | .PanicLevel => 0
  | .FatalLevel => 1
  | .ErrorLevel => 2
  | .WarnLevel => 3
  | .InfoLevel => 4
  | .DebugLevel => 5

/-- Source `Level.String()`: the fixed upper-case name of a level. -/
def Level.String : Level → String
  | .DebugLevel => "DEBUG"
  | .InfoLevel => "INFO"
  | .WarnLevel => "WARN"
  | .ErrorLevel => "ERROR"
  | .FatalLevel => "FATAL"
  | .PanicLevel => "PANIC"

/-- Go's `strings.ToLower` (the inputs involved are ASCII). -/
def goToLower (s : String) : String :=
  String.mk (s.data.map Char.toLower)

/-- Source `ParseLevel`: case-insensitive parsing of a level name, accepting the
`warn`/`warning` synonyms and failing on anything else. -/
def ParseLevel (lvl : String) : Except String Level :=
  match goToLower lvl with
  | "panic" => .ok .PanicLevel
  | "fatal" => .ok .FatalLevel
  | "error" => .ok .ErrorLevel
  | "warn" => .ok .WarnLevel
  | "warning" => .ok .WarnLevel
  | "info" => .ok .InfoLevel
  | "debug" => .ok .DebugLevel
  | _ => .error ("invalid level: " ++ lvl)

/-- Source `swapFields(&appendFields, &ctxFields)`: the value held by the local
`fields` variable after the call. If the context mapping is empty the
explicit mapping is kept; if the explicit mapping is empty the context
mapping itself is taken (no new map is built); otherwise every context
binding is assigned into the explicit map, overwriting same-named keys. -/
def swapFields (appendFields ctxFields : Fields) : Fields :=
  if ctxFields.length = 0 then appendFields
  else if appendFields.length = 0 then ctxFields
  else ctxFields.foldl (fun acc kv => mapInsert acc kv.1 kv.2) appendFields

/-- The contents, after `swapFields(&appendFields, &ctxFields)`, of the map
object `appendFields` pointed to on entry: it is written into only in the
both-non-empty branch (the empty-`appendFields` branch redirects the
caller's local variable, leaving the original object untouched). -/
def swapFieldsObjAfter (appendFields ctxFields : Fields) : Fields :=
  if ctxFields.length = 0 then appendFields
  else if appendFields.length = 0 then appendFields
  else ctxFields.foldl (fun acc kv => mapInsert acc kv.1 kv.2) appendFields

/-- The three shapes accepted under `FieldsKey`. The full-signature
variant receives the level, the explicit field map and the original
arguments and returns the (possibly mutated) explicit map together with
its own mapping; the `ctx` parameter of the Go function carries no
observable data in this model and is elided. -/
inductive FieldSource
  | static (m : Fields)
  | lazy (f : Unit → Fields)
  | contextual (f : Level → Fields → List Arg → Fields × Fields)

/-- A context: the three optional gournal attachments, plus whether this
object is Go's `context.Background()` singleton (pointer-compared against
the package's internal `defaultCtx` in `getAppender`). -/
structure Ctx where
  level : Option Level := none
  appender : Option Nat := none
  fieldSource : Option FieldSource := none
  isBackground : Bool := false

/-- The internal `defaultCtx = context.Background()` used when a log
method is invoked with a nil context. -/
def backgroundCtx : Ctx := { isBackground := true }

/-- The package-level mutable defaults. Appenders are identified by
abstract ids; `none` models a nil `DefaultAppender`. -/
structure Globals where
  DefaultLevel : Level
  DefaultAppender : Option Nat
  DefaultContext : Ctx

/-- Source `getLevel`: the level attached to the context, else `DefaultLevel`. -/
def getLevel (g : Globals) (c : Ctx) : Level :=
  match c.level with
  | some v => v
  | none => g.DefaultLevel

/-- Source `getAppender`: `DefaultAppender` when the context is the background
singleton, else the attached appender, else `DefaultAppender`. -/
def getAppender (g : Globals) (c : Ctx) : Option Nat :=
  if c.isBackground then g.DefaultAppender
  else
    match c.appender with
    | some v => some v
    | none => g.DefaultAppender

/-- The classification of `args[0]` by the dispatch engine's type switch:
its message contribution and the `arg0IsString` flag. -/
def classifyArg0 : Arg → String × Bool
  | .aStr s => (s, true)
  | .aErr s => (s, false)
  | .aStringer s => (s, false)
  | .aInt n => (toString n, false)

/-- The message produced by the dispatch engine from its argument list:
no arguments give `""`; a single argument gives its classification's
string; with more arguments a string first argument is used as a
`Sprintf` format for the rest, and a non-string first argument is
discarded in favor of `fmt.Fprint` of the rest. -/
def formatMsg (args : List Arg) : String :=
  match args with
  | [] => ""
  | arg0 :: rest =>
      let (msg, arg0IsString) := classifyArg0 arg0
      if rest.isEmpty then msg
      else if arg0IsString then sprintf msg rest
      else fprint rest

/-- The observable side effects of one dispatch, in order: a function-
valued field source being called, the appender's `Append` being called,
and the runtime panic from invoking `Append` on a nil appender. -/
inductive Event
  | fieldSourceInvoked
  | appendCalled (a : Nat) (lvl : Level) (fields : Fields) (msg : String)
  | nilAppenderPanicked
deriving DecidableEq, Repr

/-- The result of one call to the dispatch engine: its ordered side
effects and the contents, after the call, of the field-map object the
caller passed in (the entry's map when dispatched from an `Entry`). -/
structure DispatchResult where
  events : List Event
  entryFields : Fields
deriving DecidableEq, Repr

/-- Source `sendToAppender`: normalize a nil context to the internal background
context, drop the entry when the context level is below the requested
level, resolve the appender, resolve and merge fields, format the
message, and call `Append` (which panics when the appender is nil). -/
def sendToAppender (g : Globals) (ctx : Option Ctx) (lvl : Level)
    (fields : Fields) (args : List Arg) : DispatchResult :=
  let c := match ctx with
    | none => backgroundCtx
    | some c => c
  if (getLevel g c).toNat < lvl.toNat then
    { events := [], entryFields := fields }
  else
    let a := getAppender g c
    let (fsEvents, fields2, entryAfter) :=
      match c.fieldSource with
      | none => ([], fields, fields)
      | some (.static m) =>
          ([], swapFields fields m, swapFieldsObjAfter fields m)
      | some (.lazy f) =>
          let m := f ()
          ([Event.fieldSourceInvoked], swapFields fields m,
            swapFieldsObjAfter fields m)
      | some (.contextual f) =>
          let (e2, m) := f lvl fields args
          ([Event.fieldSourceInvoked], swapFields e2 m,
            swapFieldsObjAfter e2 m)
    let msg := formatMsg args
    match a with
    | none =>
        { events := fsEvents ++ [Event.nilAppenderPanicked],
          entryFields := entryAfter }
    | some aid =>
        { events := fsEvents ++ [Event.appendCalled aid lvl fields2 msg],
          entryFields := entryAfter }

/-- Go's `%v` rendering of a field value. -/
def goValRender : GoVal → String
  | .vInt n => toString n
  | .vStr s => s
  | .vStruct r => r

/-- Insert a binding into a key-sorted list, keeping it sorted. -/
def insertSorted (kv : String × GoVal) : Fields → Fields
  | [] => [kv]
  | x :: xs => if kv.1 ≤ x.1 then kv :: x :: xs else x :: insertSorted kv xs

/-- Sort a field map by key, as Go's `fmt` does when printing a map. -/
def sortFields (m : Fields) : Fields :=
  m.foldr insertSorted []

/-- Go's `%v` rendering of a `map[string]interface{}`:
`map[k1:v1 k2:v2]` with keys in sorted order. -/
def fieldsRepr (m : Fields) : String :=
  "map[" ++
    String.intercalate " "
      ((sortFields m).map (fun kv => kv.1 ++ ":" ++ goValRender kv.2)) ++ "]"

/-- The line the iowriter appender writes for one entry: the entry's
field map is printed only when non-empty. -/
def iowriterLine (lvl : Level) (fields : Fields) (msg : String) : String :=
  if fields.length = 0 then
    "[" ++ lvl.String ++ "] " ++ msg ++ "\n"
  else
    "[" ++ lvl.String ++ "] " ++ msg ++ " " ++ fieldsRepr fields ++ "\n"

/-- Result of the iowriter appender's `Append`: what was written to the
underlying writer, whether `os.Exit(1)` was reached (Fatal level), and
the payload of the panic it raises at Panic level (`panicBuf` captures
exactly the line written, via the `MultiWriter`). -/
structure IowAppendResult where
  written : String
  exits : Bool
  panicPayload : Option String
deriving DecidableEq, Repr

/-- The iowriter appender's `Append`: write the rendered line; at Fatal
level exit the process; at Panic level panic with the captured line. -/
def iowriterAppend (lvl : Level) (fields : Fields) (msg : String) :
    IowAppendResult :=
  let line := iowriterLine lvl fields msg
  { written := line
    exits := lvl = Level.FatalLevel
    panicPayload := if lvl = Level.PanicLevel then some line else none }

/-- Source `ErrorKey`, the field key used by `WithError`. -/
def ErrorKey : String := "error"

/-- Go map-literal / `WithFields`-style bulk assignment into a map. -/
def mapInsertAll (m add : Fields) : Fields :=
  add.foldl (fun acc kv => mapInsert acc kv.1 kv.2) m

/-- The `entry` struct: the accumulated explicit field map. -/
structure entry where
  fields : Fields
deriving DecidableEq, Repr

/-- Source `entry.WithField`: assign one key into the entry's map. -/
def entry.WithField (e : entry) (k : String) (v : GoVal) : entry :=
  ⟨mapInsert e.fields k v⟩

/-- Source `entry.WithFields`: assign every binding of a map into the entry's
map, last write winning. -/
def entry.WithFields (e : entry) (m : Fields) : entry :=
  ⟨mapInsertAll e.fields m⟩

/-- Source `entry.WithError`: store the error's `Error()` string under
`ErrorKey`. -/
def entry.WithError (e : entry) (err : String) : entry :=
  ⟨mapInsert e.fields ErrorKey (GoVal.vStr err)⟩

/-- Package-level `WithField`: a fresh entry with one binding. -/
def WithField (k : String) (v : GoVal) : entry :=
  ⟨[(k, v)]⟩

/-- Package-level `WithFields`: a fresh entry holding the given map. -/
def WithFields (m : Fields) : entry :=
  ⟨m⟩

/-- Package-level `WithError`: a fresh entry with the error under
`ErrorKey`. -/
def WithError (err : String) : entry :=
  ⟨[(ErrorKey, GoVal.vStr err)]⟩

/-- A terminal call on an entry: dispatch with the entry's accumulated
fields; the entry's map afterwards is whatever the dispatch left in the
shared map object. -/
def entry.emit (e : entry) (g : Globals) (ctx : Option Ctx) (lvl : Level)
    (args : List Arg) : DispatchResult × entry :=
  let r := sendToAppender g ctx lvl e.fields args
  (r, ⟨r.entryFields⟩)

/-- Package-level `gournal.Debug`. -/
def gournal.Debug (g : Globals) (ctx : Option Ctx) (args : List Arg) : DispatchResult :=
  sendToAppender g ctx Level.DebugLevel [] args

/-- Package-level `gournal.Info`. -/
def gournal.Info (g : Globals) (ctx : Option Ctx) (args : List Arg) : DispatchResult :=
  sendToAppender g ctx Level.InfoLevel [] args

/-- Package-level `gournal.Print` (INFO level). -/
def gournal.Print (g : Globals) (ctx : Option Ctx) (args : List Arg) : DispatchResult :=
  sendToAppender g ctx Level.InfoLevel [] args

/-- Package-level `gournal.Warn`. -/
def gournal.Warn (g : Globals) (ctx : Option Ctx) (args : List Arg) : DispatchResult :=
  sendToAppender g ctx Level.WarnLevel [] args

/-- Package-level `gournal.Error`. -/
def gournal.Error (g : Globals) (ctx : Option Ctx) (args : List Arg) : DispatchResult :=
  sendToAppender g ctx Level.ErrorLevel [] args

/-- Package-level `gournal.Fatal`. -/
def gournal.Fatal (g : Globals) (ctx : Option Ctx) (args : List Arg) : DispatchResult :=
  sendToAppender g ctx Level.FatalLevel [] args

/-- Package-level `gournal.Panic`. -/
def gournal.Panic (g : Globals) (ctx : Option Ctx) (args : List Arg) : DispatchResult :=
  sendToAppender g ctx Level.PanicLevel [] args

/-- The back-compat `logger` struct: one context bound at construction. -/
structure logger where
  ctx : Option Ctx

/-- Source `New`: bind a context into a back-compat logger. -/
def New (ctx : Option Ctx) : logger :=
  ⟨ctx⟩

/-- Method `logger.Debug` forwards to package `Debug` with the bound context. -/
def logger.Debug (l : logger) (g : Globals) (args : List Arg) : DispatchResult :=
  gournal.Debug g l.ctx args

/-- Method `logger.Debugf` prepends the format string and forwards to `Debug`. -/
def logger.Debugf (l : logger) (g : Globals) (format : String)
    (args : List Arg) : DispatchResult :=
  l.Debug g (Arg.aStr format :: args)

/-- Method `logger.Debugln` forwards to `Debug` unchanged. -/
def logger.Debugln (l : logger) (g : Globals) (args : List Arg) : DispatchResult :=
  l.Debug g args

/-- Method `logger.Info` forwards to package `Info` with the bound context. -/
def logger.Info (l : logger) (g : Globals) (args : List Arg) : DispatchResult :=
  gournal.Info g l.ctx args

/-- Method `logger.Infof` prepends the format string and forwards to `Info`. -/
def logger.Infof (l : logger) (g : Globals) (format : String)
    (args : List Arg) : DispatchResult :=
  l.Info g (Arg.aStr format :: args)

/-- Method `logger.Infoln` forwards to `Info` unchanged. -/
def logger.Infoln (l : logger) (g : Globals) (args : List Arg) : DispatchResult :=
  l.Info g args

/-- Method `logger.Print` forwards to package `Print` with the bound context. -/
def logger.Print (l : logger) (g : Globals) (args : List Arg) : DispatchResult :=
  gournal.Print g l.ctx args

/-- Method `logger.Printf` prepends the format string and forwards to `Print`. -/
def logger.Printf (l : logger) (g : Globals) (format : String)
    (args : List Arg) : DispatchResult :=
  l.Print g (Arg.aStr format :: args)

/-- Method `logger.Println` forwards to `Print` unchanged. -/
def logger.Println (l : logger) (g : Globals) (args : List Arg) : DispatchResult :=
  l.Print g args

/-- Method `logger.Warn` forwards to package `Warn` with the bound context. -/
def logger.Warn (l : logger) (g : Globals) (args : List Arg) : DispatchResult :=
  gournal.Warn g l.ctx args

/-- Method `logger.Warnf` prepends the format string and forwards to `Warn`. -/
def logger.Warnf (l : logger) (g : Globals) (format : String)
    (args : List Arg) : DispatchResult :=
  l.Warn g (Arg.aStr format :: args)

/-- Method `logger.Warnln` forwards to `Warn` unchanged. -/
def logger.Warnln (l : logger) (g : Globals) (args : List Arg) : DispatchResult :=
  l.Warn g args

/-- Method `logger.Error` forwards to package `Error` with the bound context. -/
def logger.Error (l : logger) (g : Globals) (args : List Arg) : DispatchResult :=
  gournal.Error g l.ctx args

/-- Method `logger.Errorf` prepends the format string and forwards to `Error`. -/
def logger.Errorf (l : logger) (g : Globals) (format : String)
    (args : List Arg) : DispatchResult :=
  l.Error g (Arg.aStr format :: args)

/-- Method `logger.Errorln` forwards to `Error` unchanged. -/
def logger.Errorln (l : logger) (g : Globals) (args : List Arg) : DispatchResult :=
  l.Error g args

/-- Method `logger.Fatal` forwards to package `Fatal` with the bound context. -/
def logger.Fatal (l : logger) (g : Globals) (args : List Arg) : DispatchResult :=
  gournal.Fatal g l.ctx args

/-- Method `logger.Fatalf` as written in the source: it prepends the format
string and forwards to `l.Error`, not `l.Fatal`. -/
def logger.Fatalf (l : logger) (g : Globals) (format : String)
    (args : List Arg) : DispatchResult :=
  l.Error g (Arg.aStr format :: args)

/-- Method `logger.Fatalln` forwards to `Fatal` unchanged. -/
def logger.Fatalln (l : logger) (g : Globals) (args : List Arg) : DispatchResult :=
  l.Fatal g args

/-- Method `logger.Panic` forwards to package `Panic` with the bound context. -/
def logger.Panic (l : logger) (g : Globals) (args : List Arg) : DispatchResult :=
  gournal.Panic g l.ctx args

/-- Method `logger.Panicf` prepends the format string and forwards to `Panic`. -/
def logger.Panicf (l : logger) (g : Globals) (format : String)
    (args : List Arg) : DispatchResult :=
  l.Panic g (Arg.aStr format :: args)

/-- Method `logger.Panicln` forwards to `Panic` unchanged. -/
def logger.Panicln (l : logger) (g : Globals) (args : List Arg) : DispatchResult :=
  l.Panic g args

/-- The full-signature field source used by the repository's test
`TestContextFieldsFuncEx`: when the explicit fields carry an int under
`"size"`, delete that key and return a three-dimensional point built from
it, otherwise return a two-dimensional point. -/
def popSize : Level → Fields → List Arg → Fields × Fields :=
  fun _ fields _ =>
    match fields.lookup "size" with
    | some (GoVal.vInt v) =>
        (fields.filter (fun kv => kv.1 ≠ "size"),
          [("point", GoVal.vStruct ("\x7b1 -1 " ++ toString v ++ "\x7d"))])
    | _ => (fields, [("point", GoVal.vStruct "\x7b1 -1\x7d")])

/-- Helper: updating an existing key in place leaves lookups of other
keys unchanged. -/
theorem lookup_map_update_ne (m : Fields) (k j : String) (v : GoVal) (h : j ≠ k) :
    (m.map (fun kv => if kv.1 = k then (k, v) else kv)).lookup j = m.lookup j := by
  induction m with
  | nil => rfl
  | cons x xs ih =>
    obtain ⟨a, b⟩ := x
    by_cases hx : a = k
    · subst hx
      simp [List.lookup_cons, beq_false_of_ne h, ih]
    · simp [List.lookup_cons, hx, ih]

/-- Helper: updating a present key in place makes its lookup return the
new value. -/
theorem lookup_map_update_self (m : Fields) (k : String) (v : GoVal)
    (h : (m.lookup k).isSome) :
    (m.map (fun kv => if kv.1 = k then (k, v) else kv)).lookup k = some v := by
  induction m with
  | nil => simp [List.lookup] at h
  | cons x xs ih =>
    obtain ⟨a, b⟩ := x
    by_cases hx : a = k
    · subst hx
      simp [List.lookup_cons]
    · simp only [List.lookup_cons, beq_false_of_ne (fun hh => hx hh.symm)] at h
      simp [List.lookup_cons, hx, beq_false_of_ne (fun hh => hx hh.symm), ih h]

/-- Helper: appending a binding for an absent key makes its lookup return
the new value. -/
theorem lookup_append_single_self (m : Fields) (k : String) (v : GoVal)
    (h : m.lookup k = none) :
    (m ++ [(k, v)]).lookup k = some v := by
  induction m with
  | nil => simp [List.lookup_cons]
  | cons x xs ih =>
    obtain ⟨a, b⟩ := x
    by_cases hx : k = a
    · subst hx
      simp [List.lookup_cons] at h
    · simp only [List.lookup_cons, beq_false_of_ne hx] at h
      simp [List.lookup_cons, beq_false_of_ne hx, ih h]

/-- Helper: appending a binding for one key leaves lookups of other keys
unchanged. -/
theorem lookup_append_single_ne (m : Fields) (k j : String) (v : GoVal)
    (h : j ≠ k) :
    (m ++ [(k, v)]).lookup j = m.lookup j := by
  induction m with
  | nil => simp [List.lookup_cons, beq_false_of_ne h, List.lookup]
  | cons x xs ih =>
    obtain ⟨a, b⟩ := x
    simp [List.lookup_cons, ih]

/-- Helper: Go map assignment has the expected lookup semantics. -/
theorem lookup_mapInsert (m : Fields) (k j : String) (v : GoVal) :
    (mapInsert m k v).lookup j = if j = k then some v else m.lookup j := by
  unfold mapInsert
  by_cases hj : j = k
  · subst hj
    split
    · rename_i h
      simp [lookup_map_update_self m j v h]
    · rename_i h
      simp [lookup_append_single_self m j v (Option.not_isSome_iff_eq_none.mp h)]
  · split
    · simp [lookup_map_update_ne m k j v hj, hj]
    · simp [lookup_append_single_ne m k j v hj, hj]

/-- Helper: a key outside a map looks up to nothing. -/
theorem lookup_eq_none_of_not_mem_keys (m : Fields) (k : String)
    (h : k ∉ m.map Prod.fst) :
    m.lookup k = none := by
  induction m with
  | nil => rfl
  | cons x xs ih =>
    obtain ⟨a, b⟩ := x
    simp only [List.map_cons, List.mem_cons, not_or] at h
    simp [List.lookup_cons, beq_false_of_ne h.1, ih h.2]

/-- Helper: folding Go map assignment over the bindings of a map with
unique keys gives that map's value on its keys and falls through to the
base map elsewhere. -/
theorem lookup_foldl_mapInsert (S : Fields) (E : Fields) (k : String)
    (hS : (S.map Prod.fst).Nodup) :
    (S.foldl (fun acc kv => mapInsert acc kv.1 kv.2) E).lookup k =
      (S.lookup k).or (E.lookup k) := by
  induction S generalizing E with
  | nil => simp [List.lookup]
  | cons x S2 ih =>
    obtain ⟨a, b⟩ := x
    simp only [List.map_cons, List.nodup_cons] at hS
    obtain ⟨ha, hS2⟩ := hS
    simp only [List.foldl_cons]
    rw [ih _ hS2]
    by_cases hk : k = a
    · subst hk
      have hnone : S2.lookup k = none := lookup_eq_none_of_not_mem_keys S2 k ha
      simp [List.lookup_cons, hnone, lookup_mapInsert]
    · simp [List.lookup_cons, beq_false_of_ne hk, lookup_mapInsert, hk]

/-- C1: merging explicit fields `E` with a resolved field-source mapping
`S` (unique keys, as in a Go map) maps every key of `S` to the value from
`S` (context-sourced values overwrite same-named explicit keys), keeps
keys of `E` not in `S`, returns `E` unmodified when `S` is empty, and
returns `S` itself when `E` is empty. -/
theorem swapFields_merge_spec (E S : Fields) (hS : (S.map Prod.fst).Nodup) :
    (∀ k v, S.lookup k = some v → (swapFields E S).lookup k = some v) ∧
    (∀ k, S.lookup k = none → (swapFields E S).lookup k = E.lookup k) ∧
    swapFields E [] = E ∧
    swapFields [] S = S := by
  refine ⟨?_, ?_, rfl, ?_⟩
  · intro k v hk
    unfold swapFields
    split
    · rename_i hlen
      have : S = [] := List.length_eq_zero.mp hlen
      subst this
      simp [List.lookup] at hk
    · split
      · exact hk
      · rw [lookup_foldl_mapInsert S E k hS, hk]
        rfl
  · intro k hk
    unfold swapFields
    split
    · rfl
    · split
      · rename_i h1 h2
        have hE : E = [] := List.length_eq_zero.mp h2
        subst hE
        simp [hk, List.lookup]
      · rw [lookup_foldl_mapInsert S E k hS, hk]
        rfl
  · by_cases hS0 : S.length = 0
    · have : S = [] := List.length_eq_zero.mp hS0
      subst this
      rfl
    · unfold swapFields
      simp [hS0]

/-- Witness for C1 at the spec's own example: explicit `a: 1` merged with
source `a: 2, b: 3` maps `a` to `2`. -/
theorem swapFields_merge_spec_witness :
    ((([("a", GoVal.vInt 2), ("b", GoVal.vInt 3)] : Fields).map Prod.fst).Nodup) ∧
    (swapFields [("a", GoVal.vInt 1)]
        [("a", GoVal.vInt 2), ("b", GoVal.vInt 3)]).lookup "a" =
      some (GoVal.vInt 2) :=
  ⟨by decide,
    (swapFields_merge_spec [("a", GoVal.vInt 1)]
        [("a", GoVal.vInt 2), ("b", GoVal.vInt 3)] (by decide)).1
      "a" (GoVal.vInt 2) (by decide)⟩

/-- C2: when the requested level is strictly less severe than the
context's resolved threshold (numerically greater), dispatch returns
immediately: no field-source invocation, no appender call, and the
caller's field map is untouched. -/
theorem level_filter_noop (g : Globals) (c : Ctx) (lvl : Level) (E : Fields)
    (args : List Arg) (h : (getLevel g c).toNat < lvl.toNat) :
    sendToAppender g (some c) lvl E args = { events := [], entryFields := E } := by
  unfold sendToAppender
  simp [h]

/-- Witness for C2: an Info call against an Error threshold does nothing. -/
theorem level_filter_noop_witness :
    (getLevel ⟨Level.DebugLevel, none, backgroundCtx⟩
        ⟨some Level.ErrorLevel, some 1, none, false⟩).toNat <
      Level.InfoLevel.toNat ∧
    sendToAppender ⟨Level.DebugLevel, none, backgroundCtx⟩
        (some ⟨some Level.ErrorLevel, some 1, none, false⟩) Level.InfoLevel []
        [Arg.aStr "Hello %s", Arg.aStr "Alice"] =
      { events := [], entryFields := [] } :=
  ⟨by decide, level_filter_noop _ _ _ _ _ (by decide)⟩

/-- C3 counterexample: the claim's print-style example fails on the code.
A string first argument is always used as a `Sprintf` format, so
`format(["Hello", "Bob"])` is `Hello%!(EXTRA string=Bob)`, not
`Hello Bob`; and a non-string first argument's contribution is discarded
when further arguments follow, so `format([error("oops"), "Bob"])` is
`Bob`. -/
theorem formatMsg_ctrex :
    formatMsg [Arg.aStr "Hello", Arg.aStr "Bob"] ≠ "Hello Bob" ∧
    formatMsg [Arg.aStr "Hello", Arg.aStr "Bob"] = "Hello%!(EXTRA string=Bob)" ∧
    formatMsg [Arg.aErr "oops", Arg.aStr "Bob"] = "Bob" := by
  refine ⟨by decide, rfl, rfl⟩

/-- C3 (amended): zero arguments give `""`; one argument gives its type-
switch classification (string itself, error's `Error()`, stringer's
`String()`, else default conversion); with more arguments a string first
argument is used as a printf template for the rest (so
`format(["Hello %s", "Bob"])` is `"Hello Bob"`), while a non-string
first argument is replaced by the print-style rendering of the remaining
arguments (spaces only between non-string operands), its own
contribution being discarded. -/
theorem formatMsg_spec :
    formatMsg [] = "" ∧
    (∀ a, formatMsg [a] = (classifyArg0 a).1) ∧
    (∀ s rest, rest ≠ [] → formatMsg (Arg.aStr s :: rest) = sprintf s rest) ∧
    (∀ a rest, rest ≠ [] → argIsString a = false →
      formatMsg (a :: rest) = fprint rest) ∧
    formatMsg [Arg.aStr "Hello %s", Arg.aStr "Bob"] = "Hello Bob" ∧
    formatMsg [Arg.aStr "Hello %s %s", Arg.aStr "Mary", Arg.aStr "Kay"] =
      "Hello Mary Kay" ∧
    formatMsg [Arg.aErr "oops"] = "oops" ∧
    formatMsg [Arg.aStringer "disp"] = "disp" ∧
    formatMsg [Arg.aInt 42] = "42" := by
  refine ⟨rfl, ?_, ?_, ?_, rfl, rfl, rfl, rfl, rfl⟩
  · intro a
    cases a <;> rfl
  · intro s rest h
    cases rest with
    | nil => exact absurd rfl h
    | cons b bs => rfl
  · intro a rest h ha
    cases rest with
    | nil => exact absurd rfl h
    | cons b bs => cases a with
      | aStr s => simp [argIsString] at ha
      | aErr s => rfl
      | aStringer s => rfl
      | aInt n => rfl

/-- Witness for the amended C3: a concrete templated two-argument call. -/
theorem formatMsg_spec_witness :
    (([Arg.aStr "Jo"] : List Arg) ≠ []) ∧
    formatMsg [Arg.aStr "Hi %s", Arg.aStr "Jo"] = sprintf "Hi %s" [Arg.aStr "Jo"] :=
  ⟨by decide, formatMsg_spec.2.2.1 "Hi %s" [Arg.aStr "Jo"] (by decide)⟩

/-- C4 counterexample: with no appender anywhere, a qualifying dispatch
on a context carrying a function field source still invokes the field
source, and only afterwards panics at the nil `Append` call — the abort
is not free of partial side effects. -/
theorem missing_appender_ctrex :
    (sendToAppender ⟨Level.DebugLevel, none, backgroundCtx⟩
        (some ⟨none, none,
          some (FieldSource.lazy (fun _ => [("a", GoVal.vInt 1)])), false⟩)
        Level.ErrorLevel [] []).events =
      [Event.fieldSourceInvoked, Event.nilAppenderPanicked] := rfl

/-- C4 (amended): when no appender resolves, the next qualifying dispatch
ends in the nil-interface panic at the `Append` call — the entry is never
silently dropped and no append happens — but field resolution (and
message formatting) run first, so the abort is not side-effect free. -/
theorem missing_appender_aborts (g : Globals) (c : Ctx) (lvl : Level)
    (E : Fields) (args : List Arg)
    (hlvl : ¬ (getLevel g c).toNat < lvl.toNat)
    (happ : getAppender g c = none) :
    ∃ pre,
      (sendToAppender g (some c) lvl E args).events =
        pre ++ [Event.nilAppenderPanicked] ∧
      ∀ a l fs m,
        Event.appendCalled a l fs m ∉ (sendToAppender g (some c) lvl E args).events := by
  unfold sendToAppender
  simp only [if_neg hlvl, happ]
  rcases c.fieldSource with _ | fs
  · exact ⟨[], rfl, by simp⟩
  · cases fs with
    | static m => exact ⟨[], rfl, by simp⟩
    | lazy f => exact ⟨[Event.fieldSourceInvoked], rfl, by simp⟩
    | contextual f =>
      exact ⟨[Event.fieldSourceInvoked], rfl, by simp⟩

/-- Witness for the amended C4: a concrete context with no attachments and
a nil default appender panics on an Error call. -/
theorem missing_appender_aborts_witness :
    ((¬ (getLevel ⟨Level.DebugLevel, none, backgroundCtx⟩
          ⟨none, none, none, false⟩).toNat < Level.ErrorLevel.toNat) ∧
      getAppender ⟨Level.DebugLevel, none, backgroundCtx⟩
          ⟨none, none, none, false⟩ = none) ∧
    (∃ pre,
      (sendToAppender ⟨Level.DebugLevel, none, backgroundCtx⟩
          (some ⟨none, none, none, false⟩) Level.ErrorLevel []
          [Arg.aStr "Hello %s", Arg.aStr "Bob"]).events =
        pre ++ [Event.nilAppenderPanicked] ∧
      ∀ a l fs m,
        Event.appendCalled a l fs m ∉
          (sendToAppender ⟨Level.DebugLevel, none, backgroundCtx⟩
            (some ⟨none, none, none, false⟩) Level.ErrorLevel []
            [Arg.aStr "Hello %s", Arg.aStr "Bob"]).events) :=
  ⟨⟨by decide, by rfl⟩,
    missing_appender_aborts _ _ _ _ _ (by decide) (by rfl)⟩

/-- C5 counterexample: at Panic level the iowriter appender's panic
payload is the whole rendered entry line, not the formatted message. -/
theorem panic_payload_ctrex :
    (iowriterAppend Level.PanicLevel [] "boom").panicPayload ≠ some "boom" ∧
    (iowriterAppend Level.PanicLevel [] "boom").panicPayload =
      some "[PANIC] boom\n" := by
  refine ⟨by decide, rfl⟩

/-- C5 (amended): a Panic-level call always meets the threshold and
invokes `Append` with the formatted message; the iowriter appender writes
the rendered entry line first and the panic it raises (inside `Append`,
after the write) carries that full line — containing the message — as
payload, so the backend records the entry before the unwind begins. -/
theorem panic_append_before_unwind (g : Globals) (c : Ctx) (a : Nat)
    (E : Fields) (args : List Arg)
    (hbg : c.isBackground = false) (happ : c.appender = some a)
    (hfs : c.fieldSource = none) :
    (sendToAppender g (some c) Level.PanicLevel E args).events =
      [Event.appendCalled a Level.PanicLevel E (formatMsg args)] ∧
    ∀ fields msg,
      (iowriterAppend Level.PanicLevel fields msg).written =
        iowriterLine Level.PanicLevel fields msg ∧
      (iowriterAppend Level.PanicLevel fields msg).panicPayload =
        some (iowriterLine Level.PanicLevel fields msg) ∧
      (iowriterAppend Level.PanicLevel fields msg).exits = false := by
  constructor
  · unfold sendToAppender
    have hnot : ¬ (getLevel g c).toNat < Level.PanicLevel.toNat := by
      simp [Level.toNat]
    simp only [if_neg hnot, hfs]
    unfold getAppender
    simp [hbg, happ]
  · intro fields msg
    refine ⟨rfl, ?_, ?_⟩
    · simp [iowriterAppend]
    · simp [iowriterAppend, Level.PanicLevel]

/-- Witness for the amended C5: a concrete Panic dispatch appends the
formatted message. -/
theorem panic_append_before_unwind_witness :
    ((⟨none, some 5, none, false⟩ : Ctx).isBackground = false ∧
      (⟨none, some 5, none, false⟩ : Ctx).appender = some 5 ∧
      (⟨none, some 5, none, false⟩ : Ctx).fieldSource = none) ∧
    (sendToAppender ⟨Level.ErrorLevel, none, backgroundCtx⟩
        (some ⟨none, some 5, none, false⟩) Level.PanicLevel []
        [Arg.aStr "boom"]).events =
      [Event.appendCalled 5 Level.PanicLevel []
        (formatMsg [Arg.aStr "boom"])] :=
  ⟨⟨rfl, rfl, rfl⟩,
    (panic_append_before_unwind ⟨Level.ErrorLevel, none, backgroundCtx⟩
      ⟨none, some 5, none, false⟩ 5 [] [Arg.aStr "boom"] rfl rfl rfl).1⟩

/-- C6: a qualifying dispatch on a context carrying the full-signature
field source invokes it with the call's level, the explicit field map and
the original arguments (the opaque context parameter carries no model
data); the map it may have mutated is then merged with its returned
mapping under the same source-wins rule. Concretely, the test's
`popSize` source deletes the explicit `size` key and injects a derived
`point` field, and the merged result reflects both. -/
theorem contextual_source_spec (g : Globals) (c : Ctx) (a : Nat)
    (lvl : Level) (E : Fields) (args : List Arg)
    (f : Level → Fields → List Arg → Fields × Fields)
    (hbg : c.isBackground = false) (happ : c.appender = some a)
    (hfs : c.fieldSource = some (FieldSource.contextual f))
    (hlvl : ¬ (getLevel g c).toNat < lvl.toNat) :
    sendToAppender g (some c) lvl E args =
      { events := [Event.fieldSourceInvoked,
          Event.appendCalled a lvl
            (swapFields (f lvl E args).1 (f lvl E args).2) (formatMsg args)],
        entryFields := swapFieldsObjAfter (f lvl E args).1 (f lvl E args).2 } ∧
    (sendToAppender ⟨Level.InfoLevel, none, backgroundCtx⟩
        (some ⟨some Level.InfoLevel, some 1,
          some (FieldSource.contextual popSize), false⟩)
        Level.InfoLevel [("size", GoVal.vInt 3)] []).events =
      [Event.fieldSourceInvoked,
        Event.appendCalled 1 Level.InfoLevel
          [("point", GoVal.vStruct "\x7b1 -1 3\x7d")] ""] := by
  constructor
  · unfold sendToAppender
    simp only [if_neg hlvl, hfs]
    unfold getAppender
    simp only [hbg, happ]
    rfl
  · rfl

/-- Witness for C6: the `popSize` source applied to explicit fields
holding `size: 3`. -/
theorem contextual_source_spec_witness :
    ((⟨some Level.InfoLevel, some 1,
        some (FieldSource.contextual popSize), false⟩ : Ctx).isBackground = false ∧
      (⟨some Level.InfoLevel, some 1,
        some (FieldSource.contextual popSize), false⟩ : Ctx).appender = some 1 ∧
      (⟨some Level.InfoLevel, some 1,
        some (FieldSource.contextual popSize), false⟩ : Ctx).fieldSource =
        some (FieldSource.contextual popSize) ∧
      ¬ (getLevel ⟨Level.InfoLevel, none, backgroundCtx⟩
          ⟨some Level.InfoLevel, some 1,
            some (FieldSource.contextual popSize), false⟩).toNat <
        Level.InfoLevel.toNat) ∧
    sendToAppender ⟨Level.InfoLevel, none, backgroundCtx⟩
        (some ⟨some Level.InfoLevel, some 1,
          some (FieldSource.contextual popSize), false⟩)
        Level.InfoLevel [("size", GoVal.vInt 3)] [] =
      { events := [Event.fieldSourceInvoked,
          Event.appendCalled 1 Level.InfoLevel
            (swapFields
              (popSize Level.InfoLevel [("size", GoVal.vInt 3)] []).1
              (popSize Level.InfoLevel [("size", GoVal.vInt 3)] []).2)
            (formatMsg [])],
        entryFields := swapFieldsObjAfter
          (popSize Level.InfoLevel [("size", GoVal.vInt 3)] []).1
          (popSize Level.InfoLevel [("size", GoVal.vInt 3)] []).2 } :=
  ⟨⟨rfl, rfl, rfl, by decide⟩,
    (contextual_source_spec ⟨Level.InfoLevel, none, backgroundCtx⟩
      ⟨some Level.InfoLevel, some 1,
        some (FieldSource.contextual popSize), false⟩ 1
      Level.InfoLevel [("size", GoVal.vInt 3)] [] popSize
      rfl rfl rfl (by decide)).1⟩

/-- C7 (code bug): `logger.Fatalf` forwards to `l.Error`, so it
dispatches at ERROR level instead of FATAL, while `logger.Fatal` and
`logger.Fatalln` dispatch at FATAL and, e.g., `logger.Errorf` behaves as
named — contradicting the interface's own doc that `Fatalf` is an alias
for `Fatal`. -/
theorem logger_fatalf_bug :
    (logger.Fatalf ⟨some ⟨some Level.DebugLevel, some 7, none, false⟩⟩
        ⟨Level.ErrorLevel, none, backgroundCtx⟩ "boom" []).events =
      [Event.appendCalled 7 Level.ErrorLevel [] "boom"] ∧
    (logger.Fatal ⟨some ⟨some Level.DebugLevel, some 7, none, false⟩⟩
        ⟨Level.ErrorLevel, none, backgroundCtx⟩ [Arg.aStr "boom"]).events =
      [Event.appendCalled 7 Level.FatalLevel [] "boom"] ∧
    (logger.Fatalln ⟨some ⟨some Level.DebugLevel, some 7, none, false⟩⟩
        ⟨Level.ErrorLevel, none, backgroundCtx⟩ [Arg.aStr "boom"]).events =
      [Event.appendCalled 7 Level.FatalLevel [] "boom"] ∧
    (logger.Errorf ⟨some ⟨some Level.DebugLevel, some 7, none, false⟩⟩
        ⟨Level.ErrorLevel, none, backgroundCtx⟩ "hi %s" [Arg.aStr "Jo"]).events =
      [Event.appendCalled 7 Level.ErrorLevel [] "hi Jo"] :=
  ⟨rfl, rfl, rfl, rfl⟩

/-- C8 counterexample: a terminal emit mutates the entry. An entry built
with `WithField "a" 1`, emitted under a context whose static field source
is `a: 2, b: 3`, has its own field map rewritten to `a: 2, b: 3` by the
dispatch, so a second terminal call presents different explicit fields
from the first. -/
theorem entry_reuse_ctrex :
    (((WithField "a" (GoVal.vInt 1)).emit ⟨Level.DebugLevel, none, backgroundCtx⟩
        (some ⟨some Level.InfoLevel, some 1,
          some (FieldSource.static [("a", GoVal.vInt 2), ("b", GoVal.vInt 3)]),
          false⟩)
        Level.InfoLevel []).2).fields ≠ (WithField "a" (GoVal.vInt 1)).fields ∧
    (((WithField "a" (GoVal.vInt 1)).emit ⟨Level.DebugLevel, none, backgroundCtx⟩
        (some ⟨some Level.InfoLevel, some 1,
          some (FieldSource.static [("a", GoVal.vInt 2), ("b", GoVal.vInt 3)]),
          false⟩)
        Level.InfoLevel []).2).fields =
      [("a", GoVal.vInt 2), ("b", GoVal.vInt 3)] := by
  refine ⟨by decide, rfl⟩

/-- C8 (amended): under a static context field source, a qualifying
terminal emit leaves the entry's map equal to the explicit fields with
the context fields written over them; the entry is unmodified — and
hence reuse presents identical explicit fields — exactly when the
entry's fields or the context mapping are empty. -/
theorem entry_reuse_spec (g : Globals) (c : Ctx) (m : Fields) (e : entry)
    (lvl : Level) (args : List Arg)
    (hfs : c.fieldSource = some (FieldSource.static m))
    (hlvl : ¬ (getLevel g c).toNat < lvl.toNat) :
    ((e.emit g (some c) lvl args).2).fields = swapFieldsObjAfter e.fields m ∧
    (e.fields = [] ∨ m = [] →
      ((e.emit g (some c) lvl args).2).fields = e.fields) := by
  have h1 : ((e.emit g (some c) lvl args).2).fields =
      swapFieldsObjAfter e.fields m := by
    unfold entry.emit sendToAppender
    simp only [if_neg hlvl, hfs]
    cases getAppender g c <;> rfl
  refine ⟨h1, ?_⟩
  rintro (he | hm)
  · rw [h1, he]
    unfold swapFieldsObjAfter
    split <;> rfl
  · rw [h1, hm]
    rfl

/-- Witness for the amended C8: a concrete entry and static source. -/
theorem entry_reuse_spec_witness :
    ((⟨some Level.InfoLevel, some 1,
        some (FieldSource.static [("b", GoVal.vInt 3)]), false⟩ : Ctx).fieldSource =
        some (FieldSource.static [("b", GoVal.vInt 3)]) ∧
      ¬ (getLevel ⟨Level.DebugLevel, none, backgroundCtx⟩
          ⟨some Level.InfoLevel, some 1,
            some (FieldSource.static [("b", GoVal.vInt 3)]), false⟩).toNat <
        Level.InfoLevel.toNat) ∧
    (((entry.mk [("a", GoVal.vInt 1)]).emit
        ⟨Level.DebugLevel, none, backgroundCtx⟩
        (some ⟨some Level.InfoLevel, some 1,
          some (FieldSource.static [("b", GoVal.vInt 3)]), false⟩)
        Level.InfoLevel []).2).fields =
      swapFieldsObjAfter [("a", GoVal.vInt 1)] [("b", GoVal.vInt 3)] :=
  ⟨⟨rfl, by decide⟩,
    (entry_reuse_spec ⟨Level.DebugLevel, none, backgroundCtx⟩
      ⟨some Level.InfoLevel, some 1,
        some (FieldSource.static [("b", GoVal.vInt 3)]), false⟩
      [("b", GoVal.vInt 3)] (entry.mk [("a", GoVal.vInt 1)])
      Level.InfoLevel [] rfl (by decide)).1⟩

/-- C9: every one of the six levels survives the round trip through its
string form: `ParseLevel (L.String) = ok L`. -/
theorem level_roundtrip (L : Level) : ParseLevel (Level.String L) = Except.ok L := by
  cases L <;> rfl

/-- C10: a nil-context dispatch uses the internal background context, not
the exported `DefaultContext` — replacing `DefaultContext` by any context
leaves every nil-context dispatch unchanged, while the background
context resolves its level to `DefaultLevel` and its appender to
`DefaultAppender`. -/
theorem defaultContext_never_read (g : Globals) (c2 : Ctx) (lvl : Level)
    (E : Fields) (args : List Arg) :
    sendToAppender { g with DefaultContext := c2 } none lvl E args =
      sendToAppender g none lvl E args ∧
    getLevel g backgroundCtx = g.DefaultLevel ∧
    getAppender g backgroundCtx = g.DefaultAppender :=
  ⟨rfl, rfl, rfl⟩
